import Mathlib

/-!
Shallow embedding of the resilience layer of mcp-japanese-parser:
the fixed-window rate limiter and the circuit breaker from
`src/error-handler.ts`, the timeout wrapper `withTimeout`, and the
process bridge (`exec`, `cleanEvalOutput`, `analyze`, `healthCheck`)
from `src/ichiran.ts`.

Times are modelled as integers (milliseconds, as returned by
`Date.now()`).  JavaScript `Map` state is modelled as an association
list; promises are modelled by passing the observed outcome of the
asynchronous operation as an explicit argument.
-/

/-! ## Rate limiter (`checkRateLimit` in `src/error-handler.ts`) -/

/-- Mirror of the `RequestMetrics` interface: window start and count. -/
structure RequestMetrics where
  timestamp : Int
  count : Nat
deriving Repr, DecidableEq

/-- The module-level constants `RATE_LIMIT_WINDOW` and `RATE_LIMIT_MAX`
(the latter read from the environment, default 60). -/
structure RateLimitConfig where
  window : Int
  max : Nat
deriving Repr, DecidableEq

/-- Defaults from the source: 60 * 1000 ms window, 60 requests. -/
def defaultRateLimitConfig : RateLimitConfig := ⟨60 * 1000, 60⟩

/-- The `requestCounts` map, modelled as an association list. -/
def RequestCounts := List (String × RequestMetrics)

instance : DecidableEq RequestCounts := by
  unfold RequestCounts
  infer_instance

/-- `Map.get`. -/
def RequestCounts.get (m : RequestCounts) (k : String) : Option RequestMetrics :=
  match m with
  | [] => none
  | (k2, v) :: rest => if k2 = k then some v else RequestCounts.get rest k

/-- `Map.set` (also models in-place mutation of an entry). -/
def RequestCounts.set (m : RequestCounts) (k : String) (v : RequestMetrics) : RequestCounts :=
  match m with
  | [] => [(k, v)]
  | (k2, v2) :: rest =>
    if k2 = k then (k, v) :: rest else (k2, v2) :: RequestCounts.set rest k v

/-- `checkRateLimit(clientId)`: returns the updated map and the boolean
result (`true` means rate limited / rejected). -/
def checkRateLimit (cfg : RateLimitConfig) (counts : RequestCounts)
    (clientId : String) (now : Int) : RequestCounts × Bool :=
  match counts.get clientId with
  | none => (counts.set clientId ⟨now, 1⟩, false)
  | some existing =>
    if now - existing.timestamp > cfg.window then
      (counts.set clientId ⟨now, 1⟩, false)
    else if existing.count ≥ cfg.max then
      (counts, true)
    else
      (counts.set clientId ⟨existing.timestamp, existing.count + 1⟩, false)

/-- Run `n` consecutive `checkRateLimit` calls with the same client id at
the same clock time; the boolean is `true` when every call admitted. -/
def runChecks (cfg : RateLimitConfig) : Nat → RequestCounts → String → Int →
    RequestCounts × Bool
  | 0, counts, _, _ => (counts, true)
  | n + 1, counts, cid, now =>
    let step := checkRateLimit cfg counts cid now
    let rest := runChecks cfg n step.1 cid now
    (rest.1, (!step.2) && rest.2)

/-! ## Circuit breaker (`CircuitBreaker` in `src/error-handler.ts`) -/

/-- The three states of the breaker. -/
inductive CBState where
  | CLOSED
  | OPEN
  | HALF_OPEN
deriving Repr, DecidableEq

/-- The fields of the `CircuitBreaker` class: the two constructor
parameters and the three mutable fields. -/
structure CircuitBreaker where
  failureThreshold : Int
  timeoutMs : Int
  failures : Int
  lastFailureTime : Int
  state : CBState
deriving Repr, DecidableEq

/-- A freshly constructed breaker:
`failures = 0`, `lastFailureTime = 0`, state `CLOSED`. -/
def CircuitBreaker.new (failureThreshold timeoutMs : Int) : CircuitBreaker :=
  ⟨failureThreshold, timeoutMs, 0, 0, CBState.CLOSED⟩

/-- `onSuccess`: reset the failure count, close the breaker. -/
def CircuitBreaker.onSuccess (cb : CircuitBreaker) : CircuitBreaker :=
  { cb with failures := 0, state := CBState.CLOSED }

/-- `onFailure`: increment the count, record the time, open the breaker
once the threshold is reached. -/
def CircuitBreaker.onFailure (cb : CircuitBreaker) (now : Int) : CircuitBreaker :=
  let failures := cb.failures + 1
  { cb with
      failures := failures
      lastFailureTime := now
      state := if failures ≥ cb.failureThreshold then CBState.OPEN else cb.state }

/-- Result of one `execute` call: short-circuited, operation value, or
the operation error rethrown unchanged. -/
inductive ExecuteOutcome (ε α : Type) where
  | breakerOpen
  | ok (a : α)
  | opError (e : ε)
deriving Repr, DecidableEq

/-- The `try / catch` body of `execute`: run the operation, update the
breaker, propagate the outcome. -/
def CircuitBreaker.runOperation (cb : CircuitBreaker) (nowF : Int)
    (op : Except ε α) : CircuitBreaker × ExecuteOutcome ε α :=
  match op with
  | Except.ok a => (cb.onSuccess, ExecuteOutcome.ok a)
  | Except.error e => (cb.onFailure nowF, ExecuteOutcome.opError e)

/-- `execute(operation)`.  `now` is `Date.now()` at entry (the open-state
check); `nowF` is `Date.now()` inside `onFailure` when the operation
fails.  The operation outcome is passed explicitly. -/
def CircuitBreaker.execute (cb : CircuitBreaker) (now nowF : Int)
    (op : Except ε α) : CircuitBreaker × ExecuteOutcome ε α :=
  if cb.state = CBState.OPEN then
    if now - cb.lastFailureTime > cb.timeoutMs then
      CircuitBreaker.runOperation { cb with state := CBState.HALF_OPEN } nowF op
    else
      (cb, ExecuteOutcome.breakerOpen)
  else
    cb.runOperation nowF op

/-- The breaker states reachable from a fresh instance with threshold `F`
and cooldown `T` by any sequence of `execute` calls. -/
inductive CBReachable (F T : Int) : CircuitBreaker → Prop where
  | init : CBReachable F T (CircuitBreaker.new F T)
  | step {ε α : Type} (cb : CircuitBreaker) (now nowF : Int) (op : Except ε α) :
      CBReachable F T cb → CBReachable F T (cb.execute now nowF op).1

/-- Fold a sequence of breaker events (entry time, failure time, operation
outcome) over the state. -/
def runBreaker (cb : CircuitBreaker) : List (Int × Int × Except Unit Unit) → CircuitBreaker
  | [] => cb
  | (now, nowF, op) :: rest => runBreaker (cb.execute now nowF op).1 rest

/-- Fold a sequence of rate-limiter events (client id, clock time) over
the map. -/
def runRateLimiter (cfg : RateLimitConfig) (counts : RequestCounts) :
    List (String × Int) → RequestCounts
  | [] => counts
  | (cid, now) :: rest => runRateLimiter cfg (checkRateLimit cfg counts cid now).1 rest

/-! ## String utilities mirroring JavaScript string operations -/

/-- JavaScript whitespace (the subset relevant here: `String.prototype.trim`
strips spaces, tabs, newlines, carriage returns, form/vertical feeds,
NBSP and the BOM). -/
def isJsWhitespace (c : Char) : Bool :=
  c = ' ' || c = '\n' || c = '\t' || c = '\r' || c = '\x0b' || c = '\x0c' ||
  c = ' ' || c = '﻿'

/-- `String.prototype.trim` on a character list. -/
def jsTrim (cs : List Char) : List Char :=
  ((cs.dropWhile isJsWhitespace).reverse.dropWhile isJsWhitespace).reverse

/-- `String.prototype.trim`. -/
def trimString (s : String) : String := String.mk (jsTrim s.toList)

/-- First index at which `pat` occurs in `s` (JavaScript `indexOf`,
`none` for `-1`). -/
def indexOfSub (s pat : List Char) : Option Nat :=
  match s with
  | [] => if pat.isEmpty then some 0 else none
  | _ :: rest =>
    if pat.isPrefixOf s then some 0 else (indexOfSub rest pat).map (· + 1)

/-- JavaScript `String.prototype.includes`. -/
def includesSub (s pat : List Char) : Bool := (indexOfSub s pat).isSome

/-- `includes` on strings. -/
def includesSubstr (s pat : String) : Bool := includesSub s.toList pat.toList

/-- JavaScript `String.prototype.substring` (swaps its arguments when
`start > finish`, clamps to the string length). -/
def jsSubstring (s : List Char) (start finish : Nat) : List Char :=
  (s.take (Nat.max start finish)).drop (Nat.min start finish)

/-- A single apostrophe, kept out of string literals. -/
def sQuote : String := String.mk ['\x27']

/-! ## Timeout wrapper (`withTimeout` in `src/error-handler.ts`) -/

/-- Outcome of the `Promise.race` between the operation and the timer:
either the operation settled first (resolved or rejected) or the timer
fired first. -/
inductive RaceOutcome (α : Type) where
  | resolved (value : α)
  | rejected (message : String)
  | timerFired
deriving Repr, DecidableEq

/-- The message built by the timer branch of `withTimeout`. -/
def timedOutMessage (operationName : String) (timeoutMs : Int) : String :=
  "Operation " ++ sQuote ++ operationName ++ sQuote ++ " timed out after " ++
    toString timeoutMs ++ "ms"

/-- `withTimeout(operation, timeoutMs, operationName)`. -/
def withTimeout (outcome : RaceOutcome α) (timeoutMs : Int)
    (operationName : String) : Except String α :=
  match outcome with
  | RaceOutcome.resolved v => Except.ok v
  | RaceOutcome.rejected m => Except.error m
  | RaceOutcome.timerFired => Except.error (timedOutMessage operationName timeoutMs)

/-! ## Process bridge (`exec` in `src/ichiran.ts`) -/

/-- Mirror of the `IchiranError` class: message, machine-readable code,
optional details object. -/
inductive ExecDetail where
  | exitCode (code : Option Int)
  | originalError (message : String)
deriving Repr, DecidableEq

/-- The error value thrown by the bridge. -/
structure IchiranErrorModel where
  message : String
  code : String
  details : Option ExecDetail
deriving Repr, DecidableEq

/-- The `ProcessOutput` the zx call resolves to under `nothrow: true`:
exit code (`none` models JavaScript `null`), stdout, stderr. -/
structure ProcessResult where
  exitCode : Option Int
  stdout : String
  stderr : String
deriving Repr, DecidableEq

/-- How the awaited subprocess attempt ends: it resolves with a process
result, or the await throws (an `Error` with a message, or some other
value whose `String(error)` rendering is kept). -/
inductive ExecAttempt where
  | completed (result : ProcessResult)
  | threwError (message : String)
  | threwNonError (repr : String)
deriving Repr, DecidableEq

/-- `config.containerName` (default). -/
def containerName : String := "ichiran-main-1"

/-- `exec(args)`: classify the outcome of one subprocess attempt.  The
two `IchiranError`s thrown inside the `try` block are rethrown unchanged
by the `catch`, so they appear directly as results here. -/
def exec (attempt : ExecAttempt) : Except IchiranErrorModel String :=
  match attempt with
  | ExecAttempt.completed result =>
    if result.exitCode ≠ some 0 then
      if includesSubstr result.stderr "No such container" then
        Except.error
          ⟨"Container " ++ sQuote ++ containerName ++ sQuote ++ " not running",
            "CONTAINER_NOT_FOUND", none⟩
      else
        Except.error
          ⟨"Command failed: " ++ result.stderr, "COMMAND_FAILED",
            some (ExecDetail.exitCode result.exitCode)⟩
    else
      Except.ok (trimString result.stdout)
  | ExecAttempt.threwError message =>
    if includesSubstr message "timeout" then
      Except.error ⟨"Processing timeout exceeded", "TIMEOUT", none⟩
    else
      Except.error
        ⟨"Execution failed: " ++ message, "EXECUTION_ERROR",
          some (ExecDetail.originalError message)⟩
  | ExecAttempt.threwNonError repr =>
    Except.error
      ⟨"Execution failed: " ++ repr, "EXECUTION_ERROR",
        some (ExecDetail.originalError repr)⟩

/-- `healthCheck()`: `true` when `exec` succeeds, `false` on any thrown
error (`try / catch` with an empty catch). -/
def healthCheck (attempt : ExecAttempt) : Bool :=
  match exec attempt with
  | Except.ok _ => true
  | Except.error _ => false

/-! ## Evaluated-output decoder (`cleanEvalOutput` in `src/ichiran.ts`) -/

/-- The double-quote character. -/
def quoteChar : Char := '\x22'

/-- The marker searched by the first branch: quote, space, newline. -/
def quoteNlMarker : List Char := ['\x22', ' ', '\n']

/-- JavaScript `startsWith` with a single-character pattern. -/
def startsWithChar (s : List Char) (c : Char) : Bool :=
  match s with
  | [] => false
  | x :: _ => x = c

/-- JavaScript `endsWith` with a single-character pattern. -/
def endsWithChar (s : List Char) (c : Char) : Bool :=
  startsWithChar s.reverse c

/-- First `if` of `cleanEvalOutput`: when the string starts with a quote
and contains the quote-space-newline marker, keep
`substring(1, indexOf(marker))`. -/
def cutAtQuoteNl (cleaned : List Char) : List Char :=
  if startsWithChar cleaned quoteChar && includesSub cleaned quoteNlMarker then
    match indexOfSub cleaned quoteNlMarker with
    | some i => jsSubstring cleaned 1 i
    | none => cleaned
  else cleaned

/-- Second `if` of `cleanEvalOutput`: `slice(1, -1)` when the string both
starts and ends with a quote. -/
def stripSurroundingQuotes (cleaned2 : List Char) : List Char :=
  if startsWithChar cleaned2 quoteChar && endsWithChar cleaned2 quoteChar then
    (cleaned2.take (cleaned2.length - 1)).drop 1
  else cleaned2

/-- `cleanEvalOutput(output)`: trim, cut at the first quote-space-newline
marker when the string starts with a quote, strip one surrounding quote
layer, trim again. -/
def cleanEvalOutput (output : String) : String :=
  String.mk (jsTrim (stripSurroundingQuotes (cutAtQuoteNl (jsTrim output.toList))))

/-! ## Structured-data decoder (`JSON.parse` and `analyze` in `src/ichiran.ts`) -/

/-- JSON whitespace accepted between tokens by `JSON.parse`. -/
def isJsonWs (c : Char) : Bool :=
  c = ' ' || c = '\n' || c = '\t' || c = '\r'

/-- Skip insignificant whitespace. -/
def skipWs (cs : List Char) : List Char := cs.dropWhile isJsonWs

/-- The object/array tree produced by `JSON.parse`.  Number values keep
their lexeme; the floating-point value itself is not interpreted
anywhere in the bridge. -/
inductive JsonValue where
  | null
  | bool (b : Bool)
  | num (lexeme : String)
  | str (s : String)
  | arr (elements : List JsonValue)
  | obj (members : List (String × JsonValue))
deriving Repr

/-- Single-character escapes allowed after a backslash in a JSON string. -/
def unescapeChar (c : Char) : Option Char :=
  if c = '\x22' then some '\x22'
  else if c = '\\' then some '\\'
  else if c = '/' then some '/'
  else if c = 'b' then some '\x08'
  else if c = 'f' then some '\x0c'
  else if c = 'n' then some '\n'
  else if c = 'r' then some '\r'
  else if c = 't' then some '\t'
  else none

/-- Value of one hexadecimal digit. -/
def hexVal (c : Char) : Option Nat :=
  if 48 ≤ c.toNat && c.toNat ≤ 57 then some (c.toNat - 48)
  else if 97 ≤ c.toNat && c.toNat ≤ 102 then some (c.toNat - 87)
  else if 65 ≤ c.toNat && c.toNat ≤ 70 then some (c.toNat - 55)
  else none

/-- Parse the body of a JSON string after the opening quote; returns the
decoded characters and the input remaining after the closing quote.
Lone-surrogate escapes are mapped through `Char.ofNat`.  The fuel is
structural bookkeeping only: every step consumes at least one input
character, so `length + 1` fuel never runs out. -/
def parseStringBody : Nat → List Char → Except String (List Char × List Char)
  | 0, _ => Except.error "Unterminated string in JSON"
  | _ + 1, [] => Except.error "Unterminated string in JSON"
  | fuel + 1, c :: cs =>
    if c = '\x22' then Except.ok ([], cs)
    else if c.toNat < 32 then Except.error "Bad control character in JSON string"
    else if c = '\\' then
      match cs with
      | [] => Except.error "Unterminated string in JSON"
      | 'u' :: h1 :: h2 :: h3 :: h4 :: cs2 =>
        match hexVal h1, hexVal h2, hexVal h3, hexVal h4 with
        | some a, some b, some c2, some d =>
          let n := ((a * 16 + b) * 16 + c2) * 16 + d
          (parseStringBody fuel cs2).map (fun p => (Char.ofNat n :: p.1, p.2))
        | _, _, _, _ => Except.error "Bad Unicode escape in JSON"
      | e :: cs2 =>
        match unescapeChar e with
        | some r => (parseStringBody fuel cs2).map (fun p => (r :: p.1, p.2))
        | none => Except.error "Bad escaped character in JSON"
    else (parseStringBody fuel cs).map (fun p => (c :: p.1, p.2))

/-- Longest digit span. -/
def spanDigits (cs : List Char) : List Char × List Char :=
  (cs.takeWhile Char.isDigit, cs.dropWhile Char.isDigit)

/-- Lex an optional exponent part. -/
def lexExp (acc cs : List Char) : Except String (List Char × List Char) :=
  match cs with
  | e :: rest =>
    if e = 'e' || e = 'E' then
      let signRest :=
        match rest with
        | '+' :: r => (['+'], r)
        | '-' :: r => ([('-' : Char)], r)
        | _ => ([], rest)
      match spanDigits signRest.2 with
      | ([], _) => Except.error "Exponent part is missing a number in JSON"
      | (ds, r2) => Except.ok (acc ++ e :: (signRest.1 ++ ds), r2)
    else Except.ok (acc, cs)
  | [] => Except.ok (acc, [])

/-- Lex an optional fraction part, then the exponent. -/
def lexFrac (acc cs : List Char) : Except String (List Char × List Char) :=
  match cs with
  | '.' :: rest =>
    match spanDigits rest with
    | ([], _) => Except.error "Unterminated fractional number in JSON"
    | (ds, r2) => lexExp (acc ++ '.' :: ds) r2
  | _ => lexExp acc cs

/-- Lex a JSON number; returns its lexeme and the remaining input. -/
def lexNumber (cs : List Char) : Except String (List Char × List Char) :=
  let negRest :=
    match cs with
    | '-' :: r => ([('-' : Char)], r)
    | _ => ([], cs)
  match negRest.2 with
  | c :: rest =>
    if c = '0' then lexFrac (negRest.1 ++ [c]) rest
    else if c.isDigit then
      match spanDigits rest with
      | (ds, r2) => lexFrac (negRest.1 ++ c :: ds) r2
    else Except.error "Unexpected token in JSON"
  | [] => Except.error "No number after minus sign in JSON"

mutual

/-- Recursive-descent JSON value parser, fuelled by the nesting depth. -/
def parseValue : Nat → List Char → Except String (JsonValue × List Char)
  | 0, _ => Except.error "JSON nesting too deep"
  | fuel + 1, input =>
    match skipWs input with
    | [] => Except.error "Unexpected end of JSON input"
    | c :: cs =>
      if c = '\x22' then
        (parseStringBody (cs.length + 1) cs).map (fun p => (JsonValue.str (String.mk p.1), p.2))
      else if c = '[' then
        match skipWs cs with
        | ']' :: rest => Except.ok (JsonValue.arr [], rest)
        | _ =>
          (parseArrayItems fuel (skipWs cs)).map
            (fun p => (JsonValue.arr p.1, p.2))
      else if c = '\x7b' then
        match skipWs cs with
        | '\x7d' :: rest => Except.ok (JsonValue.obj [], rest)
        | _ =>
          (parseObjectMembers fuel (skipWs cs)).map
            (fun p => (JsonValue.obj p.1, p.2))
      else if ("null".toList).isPrefixOf (c :: cs) then
        Except.ok (JsonValue.null, (c :: cs).drop 4)
      else if ("true".toList).isPrefixOf (c :: cs) then
        Except.ok (JsonValue.bool true, (c :: cs).drop 4)
      else if ("false".toList).isPrefixOf (c :: cs) then
        Except.ok (JsonValue.bool false, (c :: cs).drop 5)
      else if c = '-' || c.isDigit then
        (lexNumber (c :: cs)).map (fun p => (JsonValue.num (String.mk p.1), p.2))
      else Except.error "Unexpected token in JSON"

/-- Elements of a non-empty JSON array after the opening bracket. -/
def parseArrayItems : Nat → List Char → Except String (List JsonValue × List Char)
  | 0, _ => Except.error "JSON nesting too deep"
  | fuel + 1, input => do
    let p ← parseValue fuel input
    match skipWs p.2 with
    | ']' :: rest2 => Except.ok ([p.1], rest2)
    | ',' :: rest2 =>
      (parseArrayItems fuel rest2).map (fun q => (p.1 :: q.1, q.2))
    | _ => Except.error "Expected comma or closing bracket in JSON array"

/-- Members of a non-empty JSON object after the opening brace. -/
def parseObjectMembers : Nat → List Char →
    Except String (List (String × JsonValue) × List Char)
  | 0, _ => Except.error "JSON nesting too deep"
  | fuel + 1, input =>
    match skipWs input with
    | '\x22' :: cs => do
      let k ← parseStringBody (cs.length + 1) cs
      match skipWs k.2 with
      | ':' :: rest2 => do
        let p ← parseValue fuel rest2
        match skipWs p.2 with
        | '\x7d' :: rest4 => Except.ok ([(String.mk k.1, p.1)], rest4)
        | ',' :: rest4 =>
          (parseObjectMembers fuel rest4).map
            (fun q => ((String.mk k.1, p.1) :: q.1, q.2))
        | _ => Except.error "Expected comma or closing brace in JSON object"
      | _ => Except.error "Expected colon in JSON object"
    | _ => Except.error "Expected string key in JSON object"

end

/-- `JSON.parse`: parse one value, require only whitespace after it. -/
def jsonParse (s : String) : Except String JsonValue :=
  let cs := s.toList
  match parseValue (cs.length + 1) cs with
  | Except.error e => Except.error e
  | Except.ok p =>
    if (skipWs p.2).isEmpty then Except.ok p.1
    else Except.error "Unexpected non-whitespace character after JSON"

/-- What a call to `analyze` can fail with: an `IchiranError` thrown by
`exec`, or the `SyntaxError` thrown by `JSON.parse` (which `analyze`
does not catch). -/
inductive AnalyzeFailure where
  | ichiranFailure (e : IchiranErrorModel)
  | syntaxError (message : String)
deriving Repr, DecidableEq

/-- `analyze(text)` after input validation: run `exec`, then `JSON.parse`
its stdout. -/
def analyze (execOutcome : Except IchiranErrorModel String) :
    Except AnalyzeFailure JsonValue :=
  match execOutcome with
  | Except.error e => Except.error (AnalyzeFailure.ichiranFailure e)
  | Except.ok result =>
    match jsonParse result with
    | Except.error m => Except.error (AnalyzeFailure.syntaxError m)
    | Except.ok v => Except.ok v

/-- The operation passed to `execute` actually runs (the call is not
short-circuited by the open breaker). -/
def operationRuns (cb : CircuitBreaker) (now : Int) : Prop :=
  cb.state ≠ CBState.OPEN ∨ now - cb.lastFailureTime > cb.timeoutMs

instance (cb : CircuitBreaker) (now : Int) : Decidable (operationRuns cb now) := by
  unfold operationRuns
  infer_instance

/-! ## Helper lemmas -/

/-- `jsTrim` returns a contiguous part of its input. -/
lemma jsTrim_isInfix (l : List Char) : jsTrim l <:+: l := by
  unfold jsTrim
  have h1 : List.dropWhile isJsWhitespace l <:+ l := List.dropWhile_suffix _
  have h2 :
      List.dropWhile isJsWhitespace (List.dropWhile isJsWhitespace l).reverse <:+
        (List.dropWhile isJsWhitespace l).reverse := List.dropWhile_suffix _
  have h3 :
      (List.dropWhile isJsWhitespace (List.dropWhile isJsWhitespace l).reverse).reverse <+:
        List.dropWhile isJsWhitespace l := by
    rw [← List.reverse_reverse (List.dropWhile isJsWhitespace
      (List.dropWhile isJsWhitespace l).reverse)] at h2
    exact List.reverse_suffix.mp h2
  exact h3.isInfix.trans h1.isInfix

/-- A take-then-drop slice is a contiguous part of its input. -/
lemma take_drop_isInfix (l : List Char) (n m : Nat) : (l.take n).drop m <:+: l :=
  (List.drop_suffix m (l.take n)).isInfix.trans (List.take_prefix n l).isInfix

/-- `includes` holds on every contiguous occurrence. -/
lemma includesSub_of_isInfix {s pat : List Char} (h : pat <:+: s) :
    includesSub s pat = true := by
  induction s with
  | nil =>
    rw [List.infix_nil] at h
    subst h
    rfl
  | cons c rest ih =>
    rcases List.infix_cons_iff.mp h with hp | hi
    · have hb : pat.isPrefixOf (c :: rest) = true := List.isPrefixOf_iff_prefix.mpr hp
      simp [includesSub, indexOfSub, hb]
    · have hr := ih hi
      simp only [includesSub, indexOfSub] at hr ⊢
      by_cases hp2 : pat.isPrefixOf (c :: rest) = true
      · simp [hp2]
      · simpa [hp2, Option.isSome_map] using hr

/-- `execute` never changes the constructor parameters. -/
lemma execute_config (cb : CircuitBreaker) (now nowF : Int) (op : Except ε α) :
    (cb.execute now nowF op).1.failureThreshold = cb.failureThreshold ∧
    (cb.execute now nowF op).1.timeoutMs = cb.timeoutMs := by
  cases op <;>
    simp only [CircuitBreaker.execute, CircuitBreaker.runOperation,
      CircuitBreaker.onSuccess, CircuitBreaker.onFailure] <;>
    split <;> (try split) <;> simp

/-- Reachable states carry the construction-time threshold and cooldown. -/
lemma cbReachable_params {F T : Int} {cb : CircuitBreaker}
    (h : CBReachable F T cb) : cb.failureThreshold = F ∧ cb.timeoutMs = T := by
  induction h with
  | init => exact ⟨rfl, rfl⟩
  | step cb now nowF op _ ih =>
    have hc := execute_config cb now nowF op
    exact ⟨hc.1.trans ih.1, hc.2.trans ih.2⟩

/-- The breaker invariant: the failure count never goes negative, and an
open or half-open breaker has seen at least `F` consecutive failures. -/
lemma cbReachable_invariant {F T : Int} {cb : CircuitBreaker}
    (h : CBReachable F T cb) :
    0 ≤ cb.failures ∧
      ((cb.state = CBState.OPEN ∨ cb.state = CBState.HALF_OPEN) →
        F ≤ cb.failures) := by
  induction h with
  | init =>
    refine ⟨le_refl 0, ?_⟩
    intro hs
    rcases hs with hs | hs <;> simp [CircuitBreaker.new] at hs
  | step cb now nowF op hr ih =>
    have hF : cb.failureThreshold = F := (cbReachable_params hr).1
    by_cases hOpen : cb.state = CBState.OPEN
    · by_cases hCd : now - cb.lastFailureTime > cb.timeoutMs
      · cases op with
        | ok a =>
          simp [CircuitBreaker.execute, hOpen, hCd, CircuitBreaker.runOperation,
            CircuitBreaker.onSuccess]
        | error e =>
          have hfail : F ≤ cb.failures := ih.2 (Or.inl hOpen)
          simp only [CircuitBreaker.execute, hOpen, hCd, if_true,
            CircuitBreaker.runOperation, CircuitBreaker.onFailure]
          refine ⟨by omega, fun _ => by omega⟩
      · have hstep : (cb.execute now nowF op).1 = cb := by
          simp [CircuitBreaker.execute, hOpen, hCd]
        rw [hstep]
        exact ih
    · cases op with
      | ok a =>
        simp [CircuitBreaker.execute, hOpen, CircuitBreaker.runOperation,
          CircuitBreaker.onSuccess]
      | error e =>
        simp only [CircuitBreaker.execute, hOpen, if_false,
          CircuitBreaker.runOperation, CircuitBreaker.onFailure]
        refine ⟨by omega, ?_⟩
        intro hs
        by_cases hth : cb.failures + 1 ≥ cb.failureThreshold
        · omega
        · simp only [ge_iff_le, hth, if_false] at hs
          have := ih.2 hs
          omega

/-- The second phase keeps a contiguous part of its input. -/
lemma stripSurroundingQuotes_isInfix (x : List Char) :
    stripSurroundingQuotes x <:+: x := by
  unfold stripSurroundingQuotes
  split
  · exact take_drop_isInfix x (x.length - 1) 1
  · exact List.infix_refl x

/-- The first phase keeps `substring(1, i)` when the marker sits at `i`
and the string starts with a quote. -/
lemma cutAtQuoteNl_marker {c : List Char} {i : Nat}
    (h1 : startsWithChar c quoteChar = true)
    (h2 : indexOfSub c quoteNlMarker = some i) :
    cutAtQuoteNl c = jsSubstring c 1 i := by
  unfold cutAtQuoteNl
  simp [includesSub, h1, h2]

/-- The first phase is the identity when the marker is absent. -/
lemma cutAtQuoteNl_no_marker {c : List Char}
    (h : indexOfSub c quoteNlMarker = none) : cutAtQuoteNl c = c := by
  unfold cutAtQuoteNl
  simp [includesSub, h]

/-! ## Claim theorems -/

/-- C1: `exec` classifies every subprocess attempt in priority order: a
non-zero exit whose stderr shows the missing-container marker fails as
CONTAINER_NOT_FOUND; any other non-zero exit fails as COMMAND_FAILED
carrying the exit code; an attempt that throws before producing an exit
status with a timeout-indicating message fails as TIMEOUT; any other
thrown failure is wrapped as EXECUTION_ERROR preserving the original
cause as detail; otherwise `exec` succeeds with the trimmed standard
output. -/
theorem exec_classification_c1 :
    (∀ r : ProcessResult, r.exitCode ≠ some 0 →
        includesSubstr r.stderr "No such container" = true →
        exec (ExecAttempt.completed r) =
          Except.error ⟨"Container " ++ sQuote ++ containerName ++ sQuote ++
            " not running", "CONTAINER_NOT_FOUND", none⟩) ∧
    (∀ r : ProcessResult, r.exitCode ≠ some 0 →
        includesSubstr r.stderr "No such container" = false →
        exec (ExecAttempt.completed r) =
          Except.error ⟨"Command failed: " ++ r.stderr, "COMMAND_FAILED",
            some (ExecDetail.exitCode r.exitCode)⟩) ∧
    (∀ m : String, includesSubstr m "timeout" = true →
        exec (ExecAttempt.threwError m) =
          Except.error ⟨"Processing timeout exceeded", "TIMEOUT", none⟩) ∧
    (∀ m : String, includesSubstr m "timeout" = false →
        exec (ExecAttempt.threwError m) =
          Except.error ⟨"Execution failed: " ++ m, "EXECUTION_ERROR",
            some (ExecDetail.originalError m)⟩) ∧
    (∀ r : String,
        exec (ExecAttempt.threwNonError r) =
          Except.error ⟨"Execution failed: " ++ r, "EXECUTION_ERROR",
            some (ExecDetail.originalError r)⟩) ∧
    (∀ r : ProcessResult, r.exitCode = some 0 →
        exec (ExecAttempt.completed r) = Except.ok (trimString r.stdout)) := by
  refine ⟨?_, ?_, ?_, ?_, ?_, ?_⟩
  · intro r h1 h2
    simp [exec, h1, h2]
  · intro r h1 h2
    simp [exec, h1, h2]
  · intro m h
    simp [exec, h]
  · intro m h
    simp [exec, h]
  · intro r
    rfl
  · intro r h
    simp [exec, h]

/-- Witness for C1: a non-zero exit with the marker on stderr, and a
non-zero exit without it, at concrete inputs. -/
theorem exec_classification_c1_witness :
    exec (ExecAttempt.completed ⟨some 1, "", "Error: No such container"⟩) =
      Except.error ⟨"Container " ++ sQuote ++ containerName ++ sQuote ++
        " not running", "CONTAINER_NOT_FOUND", none⟩ ∧
    exec (ExecAttempt.completed ⟨some 2, "", "boom"⟩) =
      Except.error ⟨"Command failed: boom", "COMMAND_FAILED",
        some (ExecDetail.exitCode (some 2))⟩ ∧
    exec (ExecAttempt.completed ⟨some 0, " out ", ""⟩) =
      Except.ok (trimString " out ") :=
  ⟨exec_classification_c1.1 ⟨some 1, "", "Error: No such container"⟩
      (by decide) (by decide),
    exec_classification_c1.2.1 ⟨some 2, "", "boom"⟩ (by decide) (by decide),
    exec_classification_c1.2.2.2.2.2 ⟨some 0, " out ", ""⟩ rfl⟩

/-- C3: while the breaker is open and the cooldown has not yet elapsed,
`execute` fails immediately with the distinct breaker-open outcome, the
state is unchanged and the supplied operation is irrelevant; whenever
the operation does run and fails, `execute` propagates the operation
error unchanged. -/
theorem breaker_open_shortcircuit_c3 :
    (∀ (ε α : Type) (cb : CircuitBreaker) (now nowF : Int) (op : Except ε α),
        cb.state = CBState.OPEN → now - cb.lastFailureTime ≤ cb.timeoutMs →
        cb.execute now nowF op = (cb, ExecuteOutcome.breakerOpen)) ∧
    (∀ (ε α : Type) (cb : CircuitBreaker) (now nowF : Int) (e : ε),
        operationRuns cb now →
        (cb.execute now nowF (Except.error e : Except ε α)).2 =
          ExecuteOutcome.opError e) := by
  constructor
  · intro ε α cb now nowF op hOpen hCd
    have hlt : ¬ (now - cb.lastFailureTime > cb.timeoutMs) := not_lt.mpr hCd
    simp [CircuitBreaker.execute, hOpen, hlt]
  · intro ε α cb now nowF e hruns
    by_cases hOpen : cb.state = CBState.OPEN
    · rcases hruns with hs | hc
      · exact absurd hOpen hs
      · simp [CircuitBreaker.execute, hOpen, hc, CircuitBreaker.runOperation]
    · simp [CircuitBreaker.execute, hOpen, CircuitBreaker.runOperation]

/-- Witness for C3: a concrete open breaker inside its cooldown
short-circuits, and a concrete closed breaker propagates the failure. -/
theorem breaker_open_shortcircuit_c3_witness :
    (⟨2, 60000, 2, 0, CBState.OPEN⟩ : CircuitBreaker).execute 1 1
        (Except.error () : Except Unit Unit) =
      (⟨2, 60000, 2, 0, CBState.OPEN⟩, ExecuteOutcome.breakerOpen) ∧
    ((⟨2, 60000, 0, 0, CBState.CLOSED⟩ : CircuitBreaker).execute 1 1
        (Except.error () : Except Unit Unit)).2 = ExecuteOutcome.opError () :=
  ⟨breaker_open_shortcircuit_c3.1 Unit Unit ⟨2, 60000, 2, 0, CBState.OPEN⟩
      1 1 (Except.error ()) rfl (by decide),
    breaker_open_shortcircuit_c3.2 Unit Unit ⟨2, 60000, 0, 0, CBState.CLOSED⟩
      1 1 () (Or.inl (by decide))⟩

/-- C8: replaying the same event sequence against fresh rate-limiter and
breaker instances always produces the same final states: the state
evolution is a function of the observed events alone. -/
theorem deterministic_replay_c8 :
    ∀ (cfg : RateLimitConfig) (F T : Int)
      (evsR1 evsR2 : List (String × Int))
      (evsB1 evsB2 : List (Int × Int × Except Unit Unit)),
      evsR1 = evsR2 → evsB1 = evsB2 →
      runRateLimiter cfg [] evsR1 = runRateLimiter cfg [] evsR2 ∧
      runBreaker (CircuitBreaker.new F T) evsB1 =
        runBreaker (CircuitBreaker.new F T) evsB2 := by
  intro cfg F T evsR1 evsR2 evsB1 evsB2 h1 h2
  subst h1
  subst h2
  exact ⟨rfl, rfl⟩

/-- Witness for C8 at a concrete replayed sequence. -/
theorem deterministic_replay_c8_witness :
    runRateLimiter defaultRateLimitConfig [] [("a", 0), ("a", 1)] =
      runRateLimiter defaultRateLimitConfig [] [("a", 0), ("a", 1)] ∧
    runBreaker (CircuitBreaker.new 2 60000) [(0, 0, Except.error ())] =
      runBreaker (CircuitBreaker.new 2 60000) [(0, 0, Except.error ())] :=
  deterministic_replay_c8 defaultRateLimitConfig 2 60000 _ _ _ _ rfl rfl

/-- C10: `healthCheck` never propagates an error: it returns `true`
exactly when the engine invocation succeeds and `false` exactly when it
fails, whatever the failure classification. -/
theorem health_check_total_c10 :
    ∀ a : ExecAttempt,
      (healthCheck a = true ↔ ∃ s, exec a = Except.ok s) ∧
      (healthCheck a = false ↔ ∃ e, exec a = Except.error e) := by
  intro a
  rcases h : exec a with e | s
  · constructor
    · simp [healthCheck, h]
    · constructor
      · intro _
        exact ⟨e, rfl⟩
      · intro _
        simp [healthCheck, h]
  · constructor
    · constructor
      · intro _
        exact ⟨s, rfl⟩
      · intro _
        simp [healthCheck, h]
    · simp [healthCheck, h]

/-- C5: `withTimeout` returns the operation value unchanged when the
operation settles first (a rejection is likewise passed through
unchanged); when the timer fires first it fails with a message
containing both the supplied label and the timeout value. -/
theorem with_timeout_race_c5 :
    (∀ (α : Type) (v : α) (t : Int) (n : String),
        withTimeout (RaceOutcome.resolved v) t n = Except.ok v) ∧
    (∀ (α : Type) (m : String) (t : Int) (n : String),
        withTimeout (RaceOutcome.rejected m : RaceOutcome α) t n =
          Except.error m) ∧
    (∀ (α : Type) (t : Int) (n : String),
        withTimeout (RaceOutcome.timerFired : RaceOutcome α) t n =
            Except.error (timedOutMessage n t) ∧
          includesSubstr (timedOutMessage n t) n = true ∧
          includesSubstr (timedOutMessage n t) (toString t) = true) := by
  refine ⟨fun α v t n => rfl, fun α m t n => rfl, fun α t n => ⟨rfl, ?_, ?_⟩⟩
  · unfold includesSubstr
    apply includesSub_of_isInfix
    show n.data <:+: (timedOutMessage n t).data
    refine ⟨("Operation " ++ sQuote).data,
      (sQuote ++ " timed out after " ++ toString t ++ "ms").data, ?_⟩
    simp [timedOutMessage, String.data_append]
  · unfold includesSubstr
    apply includesSub_of_isInfix
    show (toString t).data <:+: (timedOutMessage n t).data
    refine ⟨("Operation " ++ sQuote ++ n ++ sQuote ++ " timed out after ").data,
      ("ms" : String).data, ?_⟩
    simp [timedOutMessage, String.data_append]

/-- C9: in every state reachable by any sequence of `execute` calls from
a fresh breaker, the failure count is non-negative, and an open or
half-open breaker has a failure count of at least the configured
threshold. -/
theorem breaker_reachable_invariant_c9 :
    ∀ (F T : Int) (cb : CircuitBreaker), CBReachable F T cb →
      0 ≤ cb.failures ∧
        ((cb.state = CBState.OPEN ∨ cb.state = CBState.HALF_OPEN) →
          F ≤ cb.failures) :=
  fun _ _ _ h => cbReachable_invariant h

/-- Witness for C9: the invariant at a concrete reachable open state,
after two consecutive failures with threshold 2. -/
theorem breaker_reachable_invariant_c9_witness :
    0 ≤ (((CircuitBreaker.new 2 60000).execute 0 0
        (Except.error () : Except Unit Unit)).1.execute 1 1
        (Except.error () : Except Unit Unit)).1.failures ∧
      (((((CircuitBreaker.new 2 60000).execute 0 0
          (Except.error () : Except Unit Unit)).1.execute 1 1
          (Except.error () : Except Unit Unit)).1.state = CBState.OPEN ∨
        ((((CircuitBreaker.new 2 60000).execute 0 0
          (Except.error () : Except Unit Unit)).1.execute 1 1
          (Except.error () : Except Unit Unit)).1.state = CBState.HALF_OPEN)) →
        2 ≤ ((((CircuitBreaker.new 2 60000).execute 0 0
          (Except.error () : Except Unit Unit)).1.execute 1 1
          (Except.error () : Except Unit Unit)).1.failures)) :=
  breaker_reachable_invariant_c9 2 60000 _
    (CBReachable.step _ 1 1 (Except.error ())
      (CBReachable.step _ 0 0 (Except.error ()) CBReachable.init))

/-- C2: the breaker state machine: a fresh breaker is Closed with zero
failures; a successful run resets the count to zero and closes the
breaker; a failed run increments the count, records the failure time,
and opens the breaker once the count reaches the threshold; an open
breaker whose cooldown has elapsed lets the next call run as a probe
(the transition happens lazily inside that call), after which a failed
probe returns the breaker to Open with a refreshed failure time; with
threshold 2 two consecutive failures go Closed, Closed, Open. -/
theorem breaker_state_machine_c2 :
    (∀ F T : Int, (CircuitBreaker.new F T).state = CBState.CLOSED ∧
        (CircuitBreaker.new F T).failures = 0) ∧
    (∀ (α : Type) (cb : CircuitBreaker) (now nowF : Int) (v : α),
        operationRuns cb now →
        (cb.execute now nowF (Except.ok v : Except Unit α)).1.failures = 0 ∧
          (cb.execute now nowF (Except.ok v : Except Unit α)).1.state =
            CBState.CLOSED) ∧
    (∀ (ε : Type) (cb : CircuitBreaker) (now nowF : Int) (e : ε),
        operationRuns cb now →
        (cb.execute now nowF (Except.error e : Except ε Unit)).1.failures =
            cb.failures + 1 ∧
          (cb.execute now nowF
            (Except.error e : Except ε Unit)).1.lastFailureTime = nowF ∧
          (cb.failures + 1 ≥ cb.failureThreshold →
            (cb.execute now nowF (Except.error e : Except ε Unit)).1.state =
              CBState.OPEN)) ∧
    (∀ (F T : Int) (cb : CircuitBreaker) (now nowF : Int) (ε : Type) (e : ε),
        CBReachable F T cb → cb.state = CBState.OPEN →
        now - cb.lastFailureTime > cb.timeoutMs →
        (cb.execute now nowF (Except.error e : Except ε Unit)).1.state =
            CBState.OPEN ∧
          (cb.execute now nowF
            (Except.error e : Except ε Unit)).1.lastFailureTime = nowF) ∧
    ((CircuitBreaker.new 2 60000).state = CBState.CLOSED ∧
      ((CircuitBreaker.new 2 60000).execute 0 0
        (Except.error () : Except Unit Unit)).1.state = CBState.CLOSED ∧
      (((CircuitBreaker.new 2 60000).execute 0 0
        (Except.error () : Except Unit Unit)).1.execute 1 1
        (Except.error () : Except Unit Unit)).1.state = CBState.OPEN) := by
  refine ⟨fun F T => ⟨rfl, rfl⟩, ?_, ?_, ?_, by decide⟩
  · intro α cb now nowF v hruns
    by_cases hOpen : cb.state = CBState.OPEN
    · rcases hruns with hs | hc
      · exact absurd hOpen hs
      · simp [CircuitBreaker.execute, hOpen, hc, CircuitBreaker.runOperation,
          CircuitBreaker.onSuccess]
    · simp [CircuitBreaker.execute, hOpen, CircuitBreaker.runOperation,
        CircuitBreaker.onSuccess]
  · intro ε cb now nowF e hruns
    by_cases hOpen : cb.state = CBState.OPEN
    · rcases hruns with hs | hc
      · exact absurd hOpen hs
      · refine ⟨?_, ?_, ?_⟩ <;>
          simp [CircuitBreaker.execute, hOpen, hc, CircuitBreaker.runOperation,
            CircuitBreaker.onFailure]
    · refine ⟨?_, ?_, ?_⟩ <;>
        simp [CircuitBreaker.execute, hOpen, CircuitBreaker.runOperation,
          CircuitBreaker.onFailure]
  · intro F T cb now nowF ε e hr hOpen hCd
    have hF := (cbReachable_params hr).1
    have hfail := (cbReachable_invariant hr).2 (Or.inl hOpen)
    have hth : cb.failures + 1 ≥ cb.failureThreshold := by omega
    constructor <;>
      simp [CircuitBreaker.execute, hOpen, hCd, CircuitBreaker.runOperation,
        CircuitBreaker.onFailure, hth]

/-- Witness for C2: the success-reset, failure-increment and failed-probe
clauses applied at concrete breakers. -/
theorem breaker_state_machine_c2_witness :
    ((⟨2, 60000, 1, 0, CBState.CLOSED⟩ : CircuitBreaker).execute 5 5
        (Except.ok () : Except Unit Unit)).1.failures = 0 ∧
      ((⟨2, 60000, 1, 0, CBState.CLOSED⟩ : CircuitBreaker).execute 5 5
        (Except.ok () : Except Unit Unit)).1.state = CBState.CLOSED ∧
      ((((CircuitBreaker.new 2 60000).execute 0 0
          (Except.error () : Except Unit Unit)).1.execute 1 1
          (Except.error () : Except Unit Unit)).1.execute 70000 70000
          (Except.error () : Except Unit Unit)).1.state = CBState.OPEN ∧
      ((((CircuitBreaker.new 2 60000).execute 0 0
          (Except.error () : Except Unit Unit)).1.execute 1 1
          (Except.error () : Except Unit Unit)).1.execute 70000 70000
          (Except.error () : Except Unit Unit)).1.lastFailureTime = 70000 := by
  have h1 := (breaker_state_machine_c2.2.1 Unit
    ⟨2, 60000, 1, 0, CBState.CLOSED⟩ 5 5 () (Or.inl (by decide)))
  have h2 := breaker_state_machine_c2.2.2.2.1 2 60000
    (((CircuitBreaker.new 2 60000).execute 0 0
      (Except.error () : Except Unit Unit)).1.execute 1 1
      (Except.error () : Except Unit Unit)).1 70000 70000 Unit ()
    (CBReachable.step _ 1 1 (Except.error ())
      (CBReachable.step _ 0 0 (Except.error ()) CBReachable.init))
    (by decide) (by decide)
  exact ⟨h1.1, h1.2, h2.1, h2.2⟩

/-- C4: the fixed-window rate limiter: a missing or stale window is
replaced by a fresh window with count 1 and the call admits; a fresh
window below the maximum increments the count and admits; a window at
the maximum rejects and leaves the map unchanged; with the default
maximum 60 and 60000 ms window, 60 same-client calls all admit, the
61st rejects, and a call 61000 ms later admits again. -/
theorem rate_limit_window_c4 :
    (∀ (cfg : RateLimitConfig) (counts : RequestCounts) (cid : String)
        (now : Int), counts.get cid = none →
        checkRateLimit cfg counts cid now =
          (counts.set cid ⟨now, 1⟩, false)) ∧
    (∀ (cfg : RateLimitConfig) (counts : RequestCounts) (cid : String)
        (now : Int) (m : RequestMetrics), counts.get cid = some m →
        now - m.timestamp > cfg.window →
        checkRateLimit cfg counts cid now =
          (counts.set cid ⟨now, 1⟩, false)) ∧
    (∀ (cfg : RateLimitConfig) (counts : RequestCounts) (cid : String)
        (now : Int) (m : RequestMetrics), counts.get cid = some m →
        ¬(now - m.timestamp > cfg.window) → m.count < cfg.max →
        checkRateLimit cfg counts cid now =
          (counts.set cid ⟨m.timestamp, m.count + 1⟩, false)) ∧
    (∀ (cfg : RateLimitConfig) (counts : RequestCounts) (cid : String)
        (now : Int) (m : RequestMetrics), counts.get cid = some m →
        ¬(now - m.timestamp > cfg.window) → m.count ≥ cfg.max →
        checkRateLimit cfg counts cid now = (counts, true)) ∧
    ((runChecks defaultRateLimitConfig 60 [] "default" 0).2 = true ∧
      (checkRateLimit defaultRateLimitConfig
        (runChecks defaultRateLimitConfig 60 [] "default" 0).1
        "default" 0).2 = true ∧
      (checkRateLimit defaultRateLimitConfig
        (runChecks defaultRateLimitConfig 60 [] "default" 0).1
        "default" 61000).2 = false) := by
  refine ⟨?_, ?_, ?_, ?_, by decide⟩
  · intro cfg counts cid now h
    simp [checkRateLimit, h]
  · intro cfg counts cid now m h hstale
    simp [checkRateLimit, h, hstale]
  · intro cfg counts cid now m h hfresh hlt
    have hnot : ¬ m.count ≥ cfg.max := not_le.mpr hlt
    simp [checkRateLimit, h, hfresh, hnot]
  · intro cfg counts cid now m h hfresh hge
    simp [checkRateLimit, h, hfresh, hge]

/-- Witness for C4: the four branches applied to concrete maps. -/
theorem rate_limit_window_c4_witness :
    checkRateLimit defaultRateLimitConfig [] "a" 0 =
      (RequestCounts.set [] "a" ⟨0, 1⟩, false) ∧
    checkRateLimit defaultRateLimitConfig [("a", ⟨0, 3⟩)] "a" 70000 =
      (RequestCounts.set [("a", ⟨0, 3⟩)] "a" ⟨70000, 1⟩, false) ∧
    checkRateLimit defaultRateLimitConfig [("a", ⟨0, 3⟩)] "a" 50 =
      (RequestCounts.set [("a", ⟨0, 3⟩)] "a" ⟨0, 4⟩, false) ∧
    checkRateLimit defaultRateLimitConfig [("a", ⟨0, 60⟩)] "a" 50 =
      ([("a", ⟨0, 60⟩)], true) :=
  ⟨rate_limit_window_c4.1 defaultRateLimitConfig [] "a" 0 rfl,
    rate_limit_window_c4.2.1 defaultRateLimitConfig [("a", ⟨0, 3⟩)] "a" 70000
      ⟨0, 3⟩ (by decide) (by decide),
    rate_limit_window_c4.2.2.1 defaultRateLimitConfig [("a", ⟨0, 3⟩)] "a" 50
      ⟨0, 3⟩ (by decide) (by decide) (by decide),
    rate_limit_window_c4.2.2.2.1 defaultRateLimitConfig [("a", ⟨0, 60⟩)] "a" 50
      ⟨0, 60⟩ (by decide) (by decide) (by decide)⟩

/-- C6 counterexample: the input contains a quote-followed-by-newline
sequence, yet everything after it is retained, because the trimmed
input does not start with a quote: the unconditional
drop-content-after-marker clause of the claim is false as stated. -/
theorem clean_eval_output_c6_counterexample :
    includesSubstr "abc\x22 \ndef" "\x22 \n" = true ∧
    cleanEvalOutput "abc\x22 \ndef" = "abc\x22 \ndef" ∧
    includesSubstr (cleanEvalOutput "abc\x22 \ndef") "def" = true := by
  decide

/-- C6 (amended): when both ends of the trimmed input are quoted and no
quote-space-newline marker occurs, one surrounding quote layer is
stripped (and the remainder trimmed); when the trimmed input starts
with a quote and the marker first occurs at index `i`, the result is
drawn entirely from the characters strictly between the leading quote
and the marker; decoding the quoted greeting yields the bare greeting. -/
theorem clean_eval_output_c6 :
    cleanEvalOutput "\x22konnichiwa\x22 \n" = "konnichiwa" ∧
    (∀ s : String,
        startsWithChar (jsTrim s.toList) quoteChar = true →
        endsWithChar (jsTrim s.toList) quoteChar = true →
        indexOfSub (jsTrim s.toList) quoteNlMarker = none →
        cleanEvalOutput s =
          String.mk (jsTrim (((jsTrim s.toList).take
            ((jsTrim s.toList).length - 1)).drop 1))) ∧
    (∀ (s : String) (i : Nat),
        startsWithChar (jsTrim s.toList) quoteChar = true →
        indexOfSub (jsTrim s.toList) quoteNlMarker = some i →
        (cleanEvalOutput s).toList <:+: jsSubstring (jsTrim s.toList) 1 i) := by
  refine ⟨by decide, ?_, ?_⟩
  · intro s h1 h2 h3
    simp only [String.toList] at h1 h2 h3
    unfold cleanEvalOutput stripSurroundingQuotes
    simp only [String.toList]
    rw [cutAtQuoteNl_no_marker h3]
    simp [h1, h2]
  · intro s i h1 h2
    unfold cleanEvalOutput
    rw [cutAtQuoteNl_marker h1 h2]
    show jsTrim (stripSurroundingQuotes (jsSubstring (jsTrim s.toList) 1 i))
      <:+: jsSubstring (jsTrim s.toList) 1 i
    exact (jsTrim_isInfix _).trans (stripSurroundingQuotes_isInfix _)

/-- Witness for C6: the quote-stripping clause at a plainly quoted
input, and the marker clause at an input with trailing content. -/
theorem clean_eval_output_c6_witness :
    cleanEvalOutput "\x22abc\x22" =
      String.mk (jsTrim (((jsTrim ("\x22abc\x22" : String).toList).take
        ((jsTrim ("\x22abc\x22" : String).toList).length - 1)).drop 1)) ∧
    (cleanEvalOutput "\x22a\x22 \nZZ").toList <:+:
      jsSubstring (jsTrim ("\x22a\x22 \nZZ" : String).toList) 1 2 :=
  ⟨clean_eval_output_c6.2.1 "\x22abc\x22" (by decide) (by decide) (by decide),
    clean_eval_output_c6.2.2 "\x22a\x22 \nZZ" 2 (by decide) (by decide)⟩

/-- C7: a non-parseable payload makes the structured-data decode fail
with the uncaught SyntaxError from `JSON.parse` — an error distinct
from every engine-invocation failure classification — rather than
crashing; the well-formed empty-words payload decodes to an object
whose word list is empty. -/
theorem analyze_decode_c7 :
    (∀ s m : String, jsonParse s = Except.error m →
        analyze (Except.ok s) = Except.error (AnalyzeFailure.syntaxError m) ∧
        ∀ e : IchiranErrorModel,
          AnalyzeFailure.syntaxError m ≠ AnalyzeFailure.ichiranFailure e) ∧
    analyze (Except.ok "\x7b\x22words\x22:[]\x7d") =
      Except.ok (JsonValue.obj [("words", JsonValue.arr [])]) := by
  constructor
  · intro s m h
    constructor
    · simp [analyze, h]
    · intro e hcontra
      exact AnalyzeFailure.noConfusion hcontra
  · rfl

/-- Witness for C7 at a concrete malformed payload and a concrete
engine failure. -/
theorem analyze_decode_c7_witness :
    analyze (Except.ok "oops") =
        Except.error (AnalyzeFailure.syntaxError "Unexpected token in JSON") ∧
      AnalyzeFailure.syntaxError "Unexpected token in JSON" ≠
        AnalyzeFailure.ichiranFailure
          ⟨"Processing timeout exceeded", "TIMEOUT", none⟩ :=
  ⟨(analyze_decode_c7.1 "oops" "Unexpected token in JSON" rfl).1,
    (analyze_decode_c7.1 "oops" "Unexpected token in JSON" rfl).2
      ⟨"Processing timeout exceeded", "TIMEOUT", none⟩⟩
